import Mathlib

/-!
# Verification of the Coppo CLI core

A shallow embedding of the Coppo package-manager core: the leveled logger
(`coppo-logger`), the configuration model (`coppo-config`), the addon
contract (`coppo-addons`), the dispatcher (`coppo-cli`), and the build
addon's entry point (`coppo-build`).  Console colors and raw I/O are
presentation and are abstracted to the message text and the channel it is
written to; file-system reads, the subprocess compiler, and the parsed
invocation are passed in as explicit values.
-/

namespace Coppo

/-! ## Logger (src/lib/coppo-logger/src/lib.rs)

`Logger` holds the single `quiet` flag.  Each level either emits its
message on a channel or emits nothing; the color applied to the text is
pure presentation and is not modelled. -/

/-- The channel a log message is written to: `println!` goes to standard
output, `eprintln!` to standard error. -/
inductive Channel where
  | stdout
  | stderr
deriving DecidableEq, Repr

/-- The `Logger` struct: a single `quiet` flag. -/
structure Logger where
  quiet : Bool
deriving DecidableEq, Repr

/-- `Logger::new(quiet)`. -/
def Logger.new (quiet : Bool) : Logger := ⟨quiet⟩

/-- `Logger::info`: `if !self.quiet { println!("{}", message.bright_cyan()) }`. -/
def Logger.info (l : Logger) (message : String) : Option (Channel × String) :=
  if !l.quiet then some (Channel.stdout, message) else none

/-- `Logger::warn`: `if !self.quiet { eprintln!("{}", message.bright_yellow()) }`. -/
def Logger.warn (l : Logger) (message : String) : Option (Channel × String) :=
  if !l.quiet then some (Channel.stderr, message) else none

/-- `Logger::error`: `if !self.quiet { eprintln!("{}", message.bright_red()) }`. -/
def Logger.error (l : Logger) (message : String) : Option (Channel × String) :=
  if !l.quiet then some (Channel.stderr, message) else none

/-- `Logger::success`: `if !self.quiet { println!("{}", message.bright_green()) }`. -/
def Logger.success (l : Logger) (message : String) : Option (Channel × String) :=
  if !l.quiet then some (Channel.stdout, message) else none

/-- The state of the `OnceLock<Logger>` global `LOGGER`: `none` before any
initialization, `some l` once set.  `OnceLock::get_or_init` sets the value
only when the cell is still empty. -/
def onceLockGetOrInit (cell : Option Logger) (mk : Logger) : Option Logger :=
  match cell with
  | none => some mk
  | some l => some l

/-- `init_logger(quite)`:
`if !quite { LOGGER.get_or_init(|| Logger::new(false)) } else { LOGGER.get_or_init(|| Logger::new(true)) }`. -/
def init_logger (cell : Option Logger) (quite : Bool) : Option Logger :=
  if !quite then onceLockGetOrInit cell (Logger.new false)
  else onceLockGetOrInit cell (Logger.new true)

/-- The global `LOGGER` state after a sequence of `init_logger` calls,
starting from the uninitialized cell. -/
def initLoggerSeq (qs : List Bool) : Option Logger :=
  qs.foldl init_logger none

/-! ## Configuration model (src/lib/coppo-config/src/lib.rs)

`Config` / `Project` / `Dependency` mirror the serde structs.  The
`dependencies: HashMap<String, Dependency>` is modelled as an association
list holding the map's entries (the TOML parser rejects duplicate keys, so
entries of a parsed table have distinct names). -/

/-- The `[project]` section of `Coppo.toml`. -/
structure Project where
  name : String
  version : String
  authors : List String
  description : Option String
  license : Option String
  repository : Option String
deriving DecidableEq, Repr

/-- `Project::default()`: every field empty. -/
def Project.default : Project := ⟨"", "", [], none, none, none⟩

/-- One entry of the `[dependencies]` table. -/
structure Dependency where
  name : String
  version : String
deriving DecidableEq, Repr

/-- The whole manifest: `project` plus the dependency table. -/
structure Config where
  project : Project
  dependencies : List (String × Dependency)
deriving DecidableEq, Repr

/-- `Config::default()`: default project, empty dependency map. -/
def Config.default : Config := ⟨Project.default, []⟩

/-- Modelled from the spec: `Config::is_empty` is called by the build addon
but is not defined under `src/`; the spec defines emptiness of a
configuration as `project.name == "" && project.version == ""`. -/
def Config.isEmpty (c : Config) : Bool :=
  c.project.name == "" && c.project.version == ""

/-! ### The manifest as structured text

The spec treats the manifest format as opaque structured text (TOML).  A
document is modelled at value level: a table maps keys to values, a value
is a string, an array of strings, or a nested table.  `Config::from_str`
(serde deserialization) and `toml::to_string` (serde serialization) are
embedded over this representation. -/

/-- A TOML value as used by the manifest: strings, string arrays, tables. -/
inductive TomlValue where
  | str : String → TomlValue
  | arr : List String → TomlValue
  | table : List (String × TomlValue) → TomlValue

/-- A TOML document: the top-level table. -/
def TomlDoc := List (String × TomlValue)

/-- Look a key up in a table (first match). -/
def tomlLookup (kvs : List (String × TomlValue)) (key : String) : Option TomlValue :=
  match kvs with
  | [] => none
  | (k, v) :: rest => if k == key then some v else tomlLookup rest key

/-- Deserialize a required `String` field: present and a string, else fail. -/
def asStr (v : Option TomlValue) : Option String :=
  match v with
  | some (TomlValue.str s) => some s
  | _ => none

/-- Deserialize a required `Vec<String>` field: present and an array, else fail. -/
def asStrArr (v : Option TomlValue) : Option (List String) :=
  match v with
  | some (TomlValue.arr xs) => some xs
  | _ => none

/-- Deserialize an `Option<String>` field: absent means `None`, a string
means `Some`, any other shape is a type error. -/
def asOptStr (v : Option TomlValue) : Option (Option String) :=
  match v with
  | none => some none
  | some (TomlValue.str s) => some (some s)
  | some _ => none

/-- Deserialize the `[project]` table: `name`, `version`, `authors` are
required; `description`, `license`, `repository` are optional. -/
def parseProject (kvs : List (String × TomlValue)) : Option Project := do
  let name ← asStr (tomlLookup kvs "name")
  let version ← asStr (tomlLookup kvs "version")
  let authors ← asStrArr (tomlLookup kvs "authors")
  let description ← asOptStr (tomlLookup kvs "description")
  let license ← asOptStr (tomlLookup kvs "license")
  let repository ← asOptStr (tomlLookup kvs "repository")
  pure ⟨name, version, authors, description, license, repository⟩

/-- Deserialize one dependency entry: a table with `name` and `version`. -/
def parseDependency (v : TomlValue) : Option Dependency :=
  match v with
  | TomlValue.table kvs => do
      let name ← asStr (tomlLookup kvs "name")
      let version ← asStr (tomlLookup kvs "version")
      pure ⟨name, version⟩
  | _ => none

/-- Deserialize the `[dependencies]` table entry by entry; any entry of
the wrong shape fails the whole parse. -/
def parseDependencies : List (String × TomlValue) → Option (List (String × Dependency))
  | [] => some []
  | kv :: rest => do
      let d ← parseDependency kv.2
      let ds ← parseDependencies rest
      pure ((kv.1, d) :: ds)

/-- `Config::from_str` over the value-level document: both the `[project]`
and the `[dependencies]` sections are required (serde emits a
missing-field error otherwise), and every dependency entry must have the
`Dependency` shape. -/
def Config.fromStr (doc : TomlDoc) : Option Config := do
  let projTable ←
    match tomlLookup doc "project" with
    | some (TomlValue.table kvs) => some kvs
    | _ => none
  let project ← parseProject projTable
  let depTable ←
    match tomlLookup doc "dependencies" with
    | some (TomlValue.table kvs) => some kvs
    | _ => none
  let dependencies ← parseDependencies depTable
  pure ⟨project, dependencies⟩

/-- Serialize the `[project]` section; optional fields are omitted when
`None` (serde skips a `None` option in TOML output). -/
def serializeProject (p : Project) : List (String × TomlValue) :=
  [("name", TomlValue.str p.name),
   ("version", TomlValue.str p.version),
   ("authors", TomlValue.arr p.authors)]
  ++ (match p.description with
      | some d => [("description", TomlValue.str d)]
      | none => [])
  ++ (match p.license with
      | some l => [("license", TomlValue.str l)]
      | none => [])
  ++ (match p.repository with
      | some r => [("repository", TomlValue.str r)]
      | none => [])

/-- `toml::to_string(&config)` over the value-level document. -/
def Config.toText (c : Config) : TomlDoc :=
  [("project", TomlValue.table (serializeProject c.project)),
   ("dependencies", TomlValue.table
     (c.dependencies.map fun kd =>
       (kd.1, TomlValue.table
         [("name", TomlValue.str kd.2.name),
          ("version", TomlValue.str kd.2.version)])))]

/-- `Config::from_file().unwrap_or_default()`: the outcome of reading and
parsing `Coppo.toml` is passed in as an `Except` value; any error is
replaced by the default configuration. -/
def Config.fromFileOrDefault (fileResult : Except String Config) : Config :=
  match fileResult with
  | Except.ok c => c
  | Except.error _ => Config.default

/-! ## Addon contract and dispatcher (coppo-addons, coppo-cli)

An `Addon` trait object is modelled as a record of its four accessors plus
its `run` entry point.  `run` takes the configuration by mutable reference
and the subcommand-scoped matches, so it is embedded as a function
returning the updated configuration together with its `AddonResult`. -/

/-- The argument bag clap hands to the selected subcommand
(`ArgMatches`), abstracted to a key/value list. -/
def ArgMatches := List (String × String)

/-- A registered addon: the `Addon` trait object.  `run` returns the
mutated configuration and `Ok(())` or `Err(message)`. -/
structure Addon where
  name : String
  version : String
  description : Option String
  args : List String
  run : Config → ArgMatches → Config × Except String Unit

/-- The `CoppoCli` struct; the clap `Command` field is the surface built
below and is not stored. -/
structure CoppoCli where
  addons : List Addon

/-- `CoppoCli::new`: no addons registered. -/
def CoppoCli.new : CoppoCli := ⟨[]⟩

/-- `add_addon`: pushes the addon at the end of the ordered collection. -/
def CoppoCli.addAddon (cli : CoppoCli) (a : Addon) : CoppoCli :=
  ⟨cli.addons ++ [a]⟩

/-- `add_addons`: extends the collection. -/
def CoppoCli.addAddons (cli : CoppoCli) (as : List Addon) : CoppoCli :=
  ⟨cli.addons ++ as⟩

/-- One subcommand descriptor of the assembled command surface:
`Command::new(addon.name()).version(addon.version()).args(addon.args()).about(addon.description().unwrap_or(""))`. -/
structure Subcommand where
  token : String
  version : String
  about : String
  args : List String
deriving DecidableEq, Repr

/-- The `.subcommands(self.addons.iter().map(...))` step of `run`: one
descriptor per registered addon, in registration order. -/
def CoppoCli.buildCommandSurface (cli : CoppoCli) : List Subcommand :=
  cli.addons.map fun a => ⟨a.name, a.version, a.description.getD "", a.args⟩

/-- The subcommand dispatch loop of `CoppoCli::run`:
`for addon in self.addons.iter() { if name == addon.name() { if let Err(e) = addon.run(&mut config, matches) { error!("{}", e); } } }`.
There is no `break`: every addon whose name equals the token runs, in
registration order, threading the mutable configuration through.  Returns
the final configuration, the invocations performed (addon index in the
registration order, with the configuration value passed in), and the
error messages handed to `error!`. -/
def runMatching : List Addon → Nat → String → ArgMatches → Config →
    Config × List (Nat × Config) × List String
  | [], _, _, _, cfg => (cfg, [], [])
  | a :: rest, i, name, m, cfg =>
    if name == a.name then
      let p := a.run cfg m
      let r := runMatching rest (i + 1) name m p.1
      (r.1, (i, cfg) :: r.2.1,
        (match p.2 with
         | Except.ok _ => []
         | Except.error e => [e]) ++ r.2.2)
    else
      runMatching rest (i + 1) name m cfg

/-- The observable outcome of one `CoppoCli::run` invocation after a
successful argument parse. -/
structure RunResult where
  config : Config
  invoked : List (Nat × Config)
  reported : List String
  emitted : List (Channel × String)
  exitCode : Nat
deriving Repr

/-- `CoppoCli::run` after `get_matches` succeeded: load the configuration
(`Config::from_file().unwrap_or_default()`), initialize the global logger
from the `--quiet` flag, and, when a subcommand was selected, run the
dispatch loop; errors returned by an addon are passed to `error!`, which
prints through the initialized global logger.  `run` returns `()` on every
path and `main` returns normally, so the process exit status is 0. -/
def CoppoCli.run (cli : CoppoCli) (fileResult : Except String Config)
    (quiet : Bool) (invocation : Option (String × ArgMatches)) : RunResult :=
  let cfg := Config.fromFileOrDefault fileResult
  let logger := (init_logger none quiet).getD (Logger.new false)
  match invocation with
  | none => ⟨cfg, [], [], [], 0⟩
  | some (name, m) =>
    let r := runMatching cli.addons 0 name m cfg
    ⟨r.1, r.2.1, r.2.2, (r.2.2).filterMap logger.error, 0⟩

/-! ## The build addon (src/lib/coppo-build/src/lib.rs)

`build` touches the file system and spawns the compiler; those external
effects enter as explicit values.  `Config::exists()` is called here but
is not defined under `src/`. -/

/-- Modelled from the spec: the file-system facts `build` consults.
`manifestExists` is the result of `Config::exists()` (the spec: a cheap
existence check for `Coppo.toml`, whose implementation is not under
`src/`); `mainCppExists` is `Path::new("src/main.cpp").exists()`. -/
structure FsState where
  manifestExists : Bool
  mainCppExists : Bool
deriving DecidableEq, Repr

/-- The `build` function of `coppo-build`: check the manifest exists,
check the configuration is non-empty, check `src/main.cpp` exists, then
compile; `compileOk`/`compilerStderr` stand for the subprocess outcome.
Creation of the `target` directory is an external effect with no bearing
on the result value and is not modelled. -/
def build (fs : FsState) (compileOk : Bool) (compilerStderr : String)
    (config : Config) : Except String Unit :=
  if !fs.manifestExists then
    Except.error "The project does not have a `Coppo.toml` file."
  else if config.isEmpty then
    Except.error "The project name and version is needed"
  else if !fs.mainCppExists then
    Except.error "The `src/main.cpp` file does not exist."
  else if compileOk then
    Except.ok ()
  else
    Except.error compilerStderr

/-- `CoppoBuildAddon` as registered through `impl_addon!`: name `build`,
description `Compile the current project`; the crate version string is a
parameter (it comes from crate metadata not under `src/`). -/
def CoppoBuildAddon (fs : FsState) (compileOk : Bool)
    (compilerStderr : String) (version : String) : Addon :=
  { name := "build"
    version := version
    description := some "Compile the current project"
    args := []
    run := fun cfg _ => (cfg, build fs compileOk compilerStderr cfg) }

/-! ## Concrete addons used as test inputs -/

/-- A trivial addon whose `run` succeeds without touching the configuration. -/
def okAddon : Addon :=
  ⟨"ok", "1.0.0", some "a trivial addon", [], fun cfg _ => (cfg, Except.ok ())⟩

/-- An addon whose `run` always fails with message `boom`. -/
def failAddon : Addon :=
  ⟨"fail", "1.0.0", none, [], fun cfg _ => (cfg, Except.error "boom")⟩

/-- First of two addons sharing the name `dup`; its run tags the project name. -/
def dupFirst : Addon :=
  ⟨"dup", "1.0.0", none, [],
   fun cfg _ => ({ cfg with project := { cfg.project with name := "first" } }, Except.ok ())⟩

/-- Second of two addons sharing the name `dup`; its run tags the project name. -/
def dupSecond : Addon :=
  ⟨"dup", "1.0.0", none, [],
   fun cfg _ => ({ cfg with project := { cfg.project with name := "second" } }, Except.ok ())⟩

/-! ## Helper lemmas -/

/-- `OnceLock::get_or_init` on an already-initialized cell keeps the stored
value, whatever `init_logger` is called with. -/
lemma init_logger_initialized (l : Logger) (q : Bool) :
    init_logger (some l) q = some l := by
  cases q <;> rfl

/-- The first `init_logger` call stores a logger with exactly its argument
as the quiet flag. -/
lemma init_logger_first (q : Bool) :
    init_logger none q = some (Logger.new q) := by
  cases q <;> rfl

/-- Once the cell holds a logger, any further sequence of `init_logger`
calls leaves it unchanged. -/
lemma initLoggerSeq_stable (qs : List Bool) (l : Logger) :
    qs.foldl init_logger (some l) = some l := by
  induction qs with
  | nil => rfl
  | cons q qs ih => simpa [List.foldl, init_logger_initialized] using ih

/-- If the dispatched name matches no registered addon, the loop invokes
nothing, reports nothing, and leaves the configuration unchanged. -/
lemma runMatching_no_match (l : List Addon) (k : Nat) (name : String)
    (m : ArgMatches) (cfg : Config) (h : name ∉ l.map Addon.name) :
    runMatching l k name m cfg = (cfg, [], []) := by
  induction l generalizing k with
  | nil => rfl
  | cons a rest ih =>
    have hne : name ≠ a.name := by
      intro heq
      exact h (by simp [heq])
    have hrest : name ∉ rest.map Addon.name := by
      intro hmem
      exact h (by simp [hmem])
    simp [runMatching, hne, ih _ hrest]

/-- When the registered names are pairwise distinct and the dispatched
token is the name of the addon at index `i`, the loop performs exactly one
invocation: addon `i`, on the incoming configuration; the outcome is that
addon's result. -/
lemma runMatching_unique (l : List Addon) (k : Nat) (m : ArgMatches)
    (cfg : Config) (hnodup : (l.map Addon.name).Nodup)
    (i : Nat) (hi : i < l.length) :
    runMatching l k (l.get ⟨i, hi⟩).name m cfg =
      (((l.get ⟨i, hi⟩).run cfg m).1, [(k + i, cfg)],
        (match ((l.get ⟨i, hi⟩).run cfg m).2 with
         | Except.ok _ => []
         | Except.error e => [e])) := by
  induction l generalizing k i with
  | nil => exact absurd hi (by simp)
  | cons a rest ih =>
    rw [List.map_cons, List.nodup_cons] at hnodup
    have hhead : a.name ∉ rest.map Addon.name := hnodup.1
    cases i with
    | zero =>
      simp only [List.get]
      have hrest :
          runMatching rest (k + 1) a.name m ((a.run cfg m).1) =
            ((a.run cfg m).1, [], []) :=
        runMatching_no_match _ _ _ _ _ hhead
      simp [runMatching, hrest]
    | succ j =>
      have hj : j < rest.length := by
        simpa using Nat.lt_of_succ_lt_succ hi
      have hmem : (rest.get ⟨j, hj⟩).name ∈ rest.map Addon.name :=
        List.mem_map_of_mem _ (rest.get_mem j hj)
      have hne : (rest.get ⟨j, hj⟩).name ≠ a.name := by
        intro hEq
        exact hhead (hEq ▸ hmem)
      have hrec := ih (k + 1) hnodup.2 j hj
      simp only [List.get_eq_getElem] at hne hrec
      simp only [List.get]
      simp [runMatching, hne, hrec, Nat.add_assoc, Nat.add_comm 1 j]

/-- The first invocation the loop performs receives the configuration the
loop started with. -/
lemma runMatching_head_config (l : List Addon) (k : Nat) (name : String)
    (m : ArgMatches) (cfg : Config) (i : Nat) (c : Config)
    (h : ((runMatching l k name m cfg).2.1).head? = some (i, c)) :
    c = cfg := by
  induction l generalizing k cfg with
  | nil => simp [runMatching] at h
  | cons a rest ih =>
    by_cases hname : name = a.name
    · simp [runMatching, hname] at h
      exact h.2.symm
    · simp only [runMatching, beq_iff_eq, if_neg hname] at h
      exact ih _ _ h

/-! ## Claims -/

/-- C1 counterexample: with the global logger initialized quiet, the error
level emits nothing — `Logger::error` is guarded by `if !self.quiet` just
like the other levels, so quiet mode does suppress error output, contrary
to the claim. -/
theorem c1_quiet_error_counterexample :
    (Logger.new true).error "build failed" = none := rfl

/-- C1 (amended): quiet mode suppresses all four levels — info, warn,
success, and also error; when the logger is not quiet, every level emits
its message (info and success to stdout, warn and error to stderr). -/
theorem c1_quiet_suppresses_all_levels (msg : String) :
    (Logger.new true).info msg = none ∧
    (Logger.new true).warn msg = none ∧
    (Logger.new true).success msg = none ∧
    (Logger.new true).error msg = none ∧
    (Logger.new false).info msg = some (Channel.stdout, msg) ∧
    (Logger.new false).warn msg = some (Channel.stderr, msg) ∧
    (Logger.new false).success msg = some (Channel.stdout, msg) ∧
    (Logger.new false).error msg = some (Channel.stderr, msg) :=
  ⟨rfl, rfl, rfl, rfl, rfl, rfl, rfl, rfl⟩

/-- C5: an invocation with no subcommand token performs no addon
invocation at all, and the process exits with status 0. -/
theorem c5_no_subcommand_no_execute (cli : CoppoCli)
    (fileResult : Except String Config) (quiet : Bool) :
    (cli.run fileResult quiet none).invoked = [] ∧
    (cli.run fileResult quiet none).exitCode = 0 :=
  ⟨rfl, rfl⟩

/-- C8: the global logger is initialized at most once — after any sequence
of `init_logger` calls the stored quiet flag is the first call's value,
and a further `init_logger` call on an initialized cell (with any value,
in particular a different one) is a no-op. -/
theorem c8_init_once_first_wins (q : Bool) (qs : List Bool) :
    initLoggerSeq (q :: qs) = some (Logger.new q) ∧
    (∀ l q', init_logger (some l) q' = some l) := by
  refine ⟨?_, fun l q' => init_logger_initialized l q'⟩
  show (q :: qs).foldl init_logger none = some (Logger.new q)
  rw [List.foldl_cons, init_logger_first]
  exact initLoggerSeq_stable qs (Logger.new q)

/-- No descriptor of the command surface carries a token that is not a
registered addon's name. -/
lemma surface_filter_no_match (l : List Addon) (name : String)
    (h : name ∉ l.map Addon.name) :
    (CoppoCli.mk l).buildCommandSurface.filter (fun s => s.token == name) = [] := by
  induction l with
  | nil => rfl
  | cons a rest ih =>
    have hne : a.name ≠ name := by
      intro heq
      exact h (by simp [heq])
    have hrest : name ∉ rest.map Addon.name := by
      intro hmem
      exact h (by simp [hmem])
    simpa [CoppoCli.buildCommandSurface, hne] using ih hrest

/-- With pairwise-distinct names, the command surface holds exactly one
descriptor whose token is a given addon's name, and it is that addon's
descriptor. -/
lemma surface_filter_unique (l : List Addon)
    (hnodup : (l.map Addon.name).Nodup) (a : Addon) (ha : a ∈ l) :
    (CoppoCli.mk l).buildCommandSurface.filter (fun s => s.token == a.name) =
      [⟨a.name, a.version, a.description.getD "", a.args⟩] := by
  induction l with
  | nil => exact absurd ha (by simp)
  | cons b rest ih =>
    rw [List.map_cons, List.nodup_cons] at hnodup
    rcases List.mem_cons.mp ha with hab | hmem
    · subst hab
      have : (CoppoCli.mk rest).buildCommandSurface.filter
          (fun s => s.token == a.name) = [] :=
        surface_filter_no_match rest a.name hnodup.1
      simpa [CoppoCli.buildCommandSurface] using this
    · have hne : b.name ≠ a.name := by
        intro heq
        exact hnodup.1 (heq ▸ List.mem_map_of_mem Addon.name hmem)
      simpa [CoppoCli.buildCommandSurface, hne] using ih hnodup.2 hmem

/-- C4: with pairwise-distinct addon names the command surface has exactly
one subcommand descriptor per addon — token its name, version its version,
about its description or the empty string, args its declared arguments —
and dispatching the token equal to the addon at index `i`'s name invokes
exactly that addon, no other. -/
theorem c4_surface_and_dispatch (cli : CoppoCli)
    (hnodup : (cli.addons.map Addon.name).Nodup)
    (fileResult : Except String Config) (quiet : Bool) (m : ArgMatches)
    (i : Nat) (hi : i < cli.addons.length) :
    cli.buildCommandSurface.length = cli.addons.length ∧
    (∀ a ∈ cli.addons,
      cli.buildCommandSurface.filter (fun s => s.token == a.name) =
        [⟨a.name, a.version, a.description.getD "", a.args⟩]) ∧
    (cli.run fileResult quiet
        (some ((cli.addons.get ⟨i, hi⟩).name, m))).invoked.map Prod.fst = [i] := by
  refine ⟨by simp [CoppoCli.buildCommandSurface],
    fun a ha => surface_filter_unique cli.addons hnodup a ha, ?_⟩
  have hru := runMatching_unique cli.addons 0 m
    (Config.fromFileOrDefault fileResult) hnodup i hi
  simp only [List.get_eq_getElem] at hru
  simp [CoppoCli.run, hru]

/-- C4 witness: a two-addon registry with distinct names `ok` and `fail`;
the surface has one descriptor per addon and dispatching the second
addon's name invokes exactly index 1. -/
theorem c4_witness :
    (CoppoCli.mk [okAddon, failAddon]).buildCommandSurface.length =
      (CoppoCli.mk [okAddon, failAddon]).addons.length ∧
    (∀ a ∈ (CoppoCli.mk [okAddon, failAddon]).addons,
      (CoppoCli.mk [okAddon, failAddon]).buildCommandSurface.filter
          (fun s => s.token == a.name) =
        [⟨a.name, a.version, a.description.getD "", a.args⟩]) ∧
    ((CoppoCli.mk [okAddon, failAddon]).run (Except.ok Config.default) false
        (some (((CoppoCli.mk [okAddon, failAddon]).addons.get
          ⟨1, by decide⟩).name, []))).invoked.map Prod.fst = [1] :=
  c4_surface_and_dispatch (CoppoCli.mk [okAddon, failAddon]) (by decide)
    (Except.ok Config.default) false [] 1 (by decide)

/-- C3 counterexample: two addons both named `dup`; dispatching `dup`
invokes index 0 and then index 1 as well — the final configuration bears
the second addon's mark — so the later duplicate is not unreachable,
contrary to the claim. -/
theorem c3_duplicate_counterexample :
    ((CoppoCli.mk [dupFirst, dupSecond]).run (Except.ok Config.default) false
        (some ("dup", []))).invoked.map Prod.fst = [0, 1] ∧
    ((CoppoCli.mk [dupFirst, dupSecond]).run (Except.ok Config.default) false
        (some ("dup", []))).config.project.name = "second" :=
  ⟨rfl, rfl⟩

/-- C3 (amended): registering two addons with the same name does not crash
dispatch, and the first-registered addon is invoked first — but the later
duplicate is invoked as well, right after it, rather than being
unreachable. -/
theorem c3_duplicate_first_then_second (a b : Addon) (h : b.name = a.name)
    (fileResult : Except String Config) (quiet : Bool) (m : ArgMatches) :
    (((CoppoCli.new.addAddon a).addAddon b).run fileResult quiet
        (some (a.name, m))).invoked.map Prod.fst = [0, 1] := by
  simp [CoppoCli.run, CoppoCli.new, CoppoCli.addAddon, runMatching, h]

/-- C3 amended-claim witness at the concrete duplicate pair. -/
theorem c3_amended_witness :
    (((CoppoCli.new.addAddon dupFirst).addAddon dupSecond).run
        (Except.ok Config.default) false
        (some (dupFirst.name, []))).invoked.map Prod.fst = [0, 1] :=
  c3_duplicate_first_then_second dupFirst dupSecond rfl
    (Except.ok Config.default) false []

/-- C2 counterexample: one registered addon whose run fails; the error is
reported, yet the process exit status is 0 — `CoppoCli::run` returns `()`
after `error!` and `main` returns normally — contradicting the claim's
non-zero exit. -/
theorem c2_exit_zero_counterexample :
    ((CoppoCli.mk [failAddon]).run (Except.ok Config.default) false
        (some ("fail", []))).reported = ["boom"] ∧
    ((CoppoCli.mk [failAddon]).run (Except.ok Config.default) false
        (some ("fail", []))).exitCode = 0 :=
  ⟨rfl, rfl⟩

/-- C2 (amended): when the dispatched addon's run returns an error, the
dispatcher hands the error to the error logger (emitted on stderr unless
quiet mode suppresses it), invokes no other addon (names being distinct),
and the process exits with status 0 — not a non-zero status. -/
theorem c2_error_reported_exit_zero (cli : CoppoCli)
    (hnodup : (cli.addons.map Addon.name).Nodup)
    (i : Nat) (hi : i < cli.addons.length)
    (fileResult : Except String Config) (quiet : Bool) (m : ArgMatches)
    (cfg' : Config) (e : String)
    (herr : (cli.addons.get ⟨i, hi⟩).run (Config.fromFileOrDefault fileResult) m
      = (cfg', Except.error e)) :
    (cli.run fileResult quiet
        (some ((cli.addons.get ⟨i, hi⟩).name, m))).invoked.map Prod.fst = [i] ∧
    (cli.run fileResult quiet
        (some ((cli.addons.get ⟨i, hi⟩).name, m))).reported = [e] ∧
    (cli.run fileResult quiet
        (some ((cli.addons.get ⟨i, hi⟩).name, m))).exitCode = 0 ∧
    (cli.run fileResult quiet
        (some ((cli.addons.get ⟨i, hi⟩).name, m))).emitted =
      (if quiet then [] else [(Channel.stderr, e)]) := by
  have hru := runMatching_unique cli.addons 0 m
    (Config.fromFileOrDefault fileResult) hnodup i hi
  rw [herr] at hru
  simp only [List.get_eq_getElem] at hru
  cases quiet <;>
    simp [CoppoCli.run, hru, init_logger, onceLockGetOrInit, Logger.new,
      Logger.error]

/-- C2 amended-claim witness: the failing addon, not quiet — error
reported and emitted on stderr, exit status 0. -/
theorem c2_amended_witness :
    ((CoppoCli.mk [failAddon]).run (Except.ok Config.default) false
        (some ("fail", []))).invoked.map Prod.fst = [0] ∧
    ((CoppoCli.mk [failAddon]).run (Except.ok Config.default) false
        (some ("fail", []))).reported = ["boom"] ∧
    ((CoppoCli.mk [failAddon]).run (Except.ok Config.default) false
        (some ("fail", []))).exitCode = 0 ∧
    ((CoppoCli.mk [failAddon]).run (Except.ok Config.default) false
        (some ("fail", []))).emitted =
      (if false then [] else [(Channel.stderr, "boom")]) :=
  c2_error_reported_exit_zero (CoppoCli.mk [failAddon]) (by decide) 0
    (by decide) (Except.ok Config.default) false [] Config.default "boom" rfl

/-- C6: when reading or parsing the manifest fails, the dispatcher
substitutes the default configuration and proceeds — the whole run is the
same as a run on the default configuration — and whichever addon gets
invoked first receives exactly the default configuration. -/
theorem c6_missing_manifest_default (cli : CoppoCli) (quiet : Bool)
    (invocation : Option (String × ArgMatches))
    (fileResult : Except String Config) (e : String)
    (hfail : fileResult = Except.error e) :
    cli.run fileResult quiet invocation =
      cli.run (Except.ok Config.default) quiet invocation ∧
    (∀ i c, (cli.run fileResult quiet invocation).invoked.head? = some (i, c) →
      c = Config.default) := by
  subst hfail
  constructor
  · rfl
  · intro i c h
    cases invocation with
    | none => simp [CoppoCli.run] at h
    | some nm =>
      obtain ⟨name, m⟩ := nm
      simp only [CoppoCli.run] at h
      exact runMatching_head_config cli.addons 0 name m Config.default i c h

/-- C6 witness: a read failure on the manifest; the run equals the run on
the default configuration. -/
theorem c6_witness :
    (CoppoCli.mk [okAddon]).run (Except.error "No such file or directory")
        true (some ("ok", [])) =
      (CoppoCli.mk [okAddon]).run (Except.ok Config.default)
        true (some ("ok", [])) :=
  (c6_missing_manifest_default (CoppoCli.mk [okAddon]) true (some ("ok", []))
    (Except.error "No such file or directory") "No such file or directory"
    rfl).1

/-- C9 counterexample: manifest absent, `build` dispatched — the addon
does return the missing-manifest `ExecutionError` and the dispatcher
reports it, yet the process exit status is 0, not non-zero as the claim
states. -/
theorem c9_exit_zero_counterexample :
    ((CoppoCli.mk [CoppoBuildAddon ⟨false, true⟩ true "" "0.1.0"]).run
        (Except.error "No such file or directory") false
        (some ("build", []))).reported =
      ["The project does not have a `Coppo.toml` file."] ∧
    ((CoppoCli.mk [CoppoBuildAddon ⟨false, true⟩ true "" "0.1.0"]).run
        (Except.error "No such file or directory") false
        (some ("build", []))).exitCode = 0 :=
  ⟨rfl, rfl⟩

/-- C9 (amended): with the manifest absent, the dispatched build addon
detects the absence through the existence check and returns the
`ExecutionError`; the dispatcher hands it to the error logger (emitted on
stderr when not quiet) — but the process exits with status 0, not a
non-zero status. -/
theorem c9_build_missing_manifest (fs : FsState) (compileOk : Bool)
    (compilerStderr : String) (version : String)
    (fileResult : Except String Config) (quiet : Bool) (m : ArgMatches)
    (habsent : fs.manifestExists = false) :
    build fs compileOk compilerStderr (Config.fromFileOrDefault fileResult) =
      Except.error "The project does not have a `Coppo.toml` file." ∧
    ((CoppoCli.mk [CoppoBuildAddon fs compileOk compilerStderr version]).run
        fileResult quiet (some ("build", m))).invoked.map Prod.fst = [0] ∧
    ((CoppoCli.mk [CoppoBuildAddon fs compileOk compilerStderr version]).run
        fileResult quiet (some ("build", m))).reported =
      ["The project does not have a `Coppo.toml` file."] ∧
    ((CoppoCli.mk [CoppoBuildAddon fs compileOk compilerStderr version]).run
        fileResult quiet (some ("build", m))).exitCode = 0 ∧
    (quiet = false →
      ((CoppoCli.mk [CoppoBuildAddon fs compileOk compilerStderr version]).run
          fileResult quiet (some ("build", m))).emitted =
        [(Channel.stderr, "The project does not have a `Coppo.toml` file.")]) := by
  have hb : build fs compileOk compilerStderr
      (Config.fromFileOrDefault fileResult) =
      Except.error "The project does not have a `Coppo.toml` file." := by
    simp [build, habsent]
  refine ⟨hb, ?_⟩
  cases quiet <;>
    simp [CoppoCli.run, runMatching, CoppoBuildAddon, hb, init_logger,
      onceLockGetOrInit, Logger.new, Logger.error]

/-- C9 amended-claim witness at a concrete absent-manifest state. -/
theorem c9_amended_witness :
    build ⟨false, true⟩ true "" (Config.fromFileOrDefault
        (Except.error "No such file or directory")) =
      Except.error "The project does not have a `Coppo.toml` file." ∧
    ((CoppoCli.mk [CoppoBuildAddon ⟨false, true⟩ true "" "0.1.0"]).run
        (Except.error "No such file or directory") false
        (some ("build", []))).invoked.map Prod.fst = [0] ∧
    ((CoppoCli.mk [CoppoBuildAddon ⟨false, true⟩ true "" "0.1.0"]).run
        (Except.error "No such file or directory") false
        (some ("build", []))).reported =
      ["The project does not have a `Coppo.toml` file."] ∧
    ((CoppoCli.mk [CoppoBuildAddon ⟨false, true⟩ true "" "0.1.0"]).run
        (Except.error "No such file or directory") false
        (some ("build", []))).exitCode = 0 ∧
    (false = false →
      ((CoppoCli.mk [CoppoBuildAddon ⟨false, true⟩ true "" "0.1.0"]).run
          (Except.error "No such file or directory") false
          (some ("build", []))).emitted =
        [(Channel.stderr, "The project does not have a `Coppo.toml` file.")]) :=
  c9_build_missing_manifest ⟨false, true⟩ true "" "0.1.0"
    (Except.error "No such file or directory") false [] rfl

/-! ## Round-trip of the configuration through the manifest format -/

/-- Serializing one dependency entry and parsing it back yields the entry. -/
lemma parseDependency_serialize (d : Dependency) :
    parseDependency (TomlValue.table
      [("name", TomlValue.str d.name), ("version", TomlValue.str d.version)]) =
      some d := rfl

/-- Serializing the dependency table and parsing every entry back yields
the original table. -/
lemma parseDependencies_serialize (deps : List (String × Dependency)) :
    parseDependencies
      (deps.map fun kd =>
        (kd.1, TomlValue.table
          [("name", TomlValue.str kd.2.name),
           ("version", TomlValue.str kd.2.version)])) = some deps := by
  induction deps with
  | nil => rfl
  | cons kd rest ih =>
    simp [parseDependencies, ih, parseDependency_serialize]

/-- Any configuration serialized to manifest text parses back to itself. -/
lemma fromStr_toText (c : Config) : Config.fromStr (Config.toText c) = some c := by
  obtain ⟨⟨n, v, as, d, l, r⟩, deps⟩ := c
  have hdeps := parseDependencies_serialize deps
  cases d <;> cases l <;> cases r <;>
    simp [Config.fromStr, Config.toText, serializeProject, parseProject,
      tomlLookup, asStr, asStrArr, asOptStr, hdeps]

/-- C7: loading a well-formed manifest, serializing the configuration back
to manifest text, and loading again yields a configuration equal to the
first. -/
theorem c7_load_serialize_roundtrip (doc : TomlDoc) (c : Config)
    (h : Config.fromStr doc = some c) :
    Config.fromStr (Config.toText c) = some c :=
  fromStr_toText c

/-- A concrete well-formed manifest: full `[project]` section except
`repository`, one dependency. -/
def demoManifest : TomlDoc :=
  [("project", TomlValue.table
     [("name", TomlValue.str "demo"),
      ("version", TomlValue.str "0.1.0"),
      ("authors", TomlValue.arr ["John Doe <example@123.com>"]),
      ("description", TomlValue.str "This is a simple project."),
      ("license", TomlValue.str "MIT")]),
   ("dependencies", TomlValue.table
     [("mylib", TomlValue.table
        [("name", TomlValue.str "mylib"),
         ("version", TomlValue.str "1.2.3")])])]

/-- The configuration `demoManifest` parses to. -/
def demoConfig : Config :=
  ⟨⟨"demo", "0.1.0", ["John Doe <example@123.com>"],
    some "This is a simple project.", some "MIT", none⟩,
   [("mylib", ⟨"mylib", "1.2.3"⟩)]⟩

/-- C7 witness: the round trip at the concrete manifest. -/
theorem c7_witness :
    Config.fromStr (Config.toText demoConfig) = some demoConfig :=
  c7_load_serialize_roundtrip demoManifest demoConfig rfl

/-! ## Required and optional manifest fields -/

/-- A successful `asStr` pins the looked-up value to a string. -/
lemma asStr_some (v : Option TomlValue) (s : String) (h : asStr v = some s) :
    v = some (TomlValue.str s) := by
  cases v with
  | none => simp [asStr] at h
  | some tv =>
    cases tv with
    | str t => simp [asStr] at h; rw [h]
    | arr xs => simp [asStr] at h
    | table kvs => simp [asStr] at h

/-- A successful `asStrArr` pins the looked-up value to a string array. -/
lemma asStrArr_some (v : Option TomlValue) (xs : List String)
    (h : asStrArr v = some xs) : v = some (TomlValue.arr xs) := by
  cases v with
  | none => simp [asStrArr] at h
  | some tv =>
    cases tv with
    | str t => simp [asStrArr] at h
    | arr ys => simp [asStrArr] at h; rw [h]
    | table kvs => simp [asStrArr] at h

/-- C10: a manifest parses into a configuration only when the `[project]`
table is present with string fields `name` and `version` and array field
`authors`, and the `[dependencies]` table is present; the optional fields
`description`, `license`, `repository` parse to `None` when absent. -/
theorem c10_required_manifest_fields (doc : TomlDoc) (c : Config)
    (h : Config.fromStr doc = some c) :
    (∃ pk, tomlLookup doc "project" = some (TomlValue.table pk) ∧
      (∃ s, tomlLookup pk "name" = some (TomlValue.str s)) ∧
      (∃ s, tomlLookup pk "version" = some (TomlValue.str s)) ∧
      (∃ xs, tomlLookup pk "authors" = some (TomlValue.arr xs)) ∧
      (tomlLookup pk "description" = none → c.project.description = none) ∧
      (tomlLookup pk "license" = none → c.project.license = none) ∧
      (tomlLookup pk "repository" = none → c.project.repository = none)) ∧
    (∃ dk, tomlLookup doc "dependencies" = some (TomlValue.table dk)) := by
  cases hp : tomlLookup doc "project" with
  | none => simp [Config.fromStr, hp] at h
  | some pv =>
    cases pv with
    | str s => simp [Config.fromStr, hp] at h
    | arr xs => simp [Config.fromStr, hp] at h
    | table pk =>
      cases hn : asStr (tomlLookup pk "name") with
      | none => simp [Config.fromStr, parseProject, hp, hn] at h
      | some nval =>
        cases hv : asStr (tomlLookup pk "version") with
        | none => simp [Config.fromStr, parseProject, hp, hn, hv] at h
        | some vval =>
          cases ha : asStrArr (tomlLookup pk "authors") with
          | none => simp [Config.fromStr, parseProject, hp, hn, hv, ha] at h
          | some aval =>
            cases hd : asOptStr (tomlLookup pk "description") with
            | none => simp [Config.fromStr, parseProject, hp, hn, hv, ha, hd] at h
            | some dval =>
              cases hl : asOptStr (tomlLookup pk "license") with
              | none =>
                simp [Config.fromStr, parseProject, hp, hn, hv, ha, hd, hl] at h
              | some lval =>
                cases hr : asOptStr (tomlLookup pk "repository") with
                | none =>
                  simp [Config.fromStr, parseProject, hp, hn, hv, ha, hd, hl,
                    hr] at h
                | some rval =>
                  cases hdep : tomlLookup doc "dependencies" with
                  | none =>
                    simp [Config.fromStr, parseProject, hp, hn, hv, ha, hd, hl,
                      hr, hdep] at h
                  | some dv =>
                    cases dv with
                    | str s =>
                      simp [Config.fromStr, parseProject, hp, hn, hv, ha, hd,
                        hl, hr, hdep] at h
                    | arr xs =>
                      simp [Config.fromStr, parseProject, hp, hn, hv, ha, hd,
                        hl, hr, hdep] at h
                    | table dk =>
                      cases hds : parseDependencies dk with
                      | none =>
                        simp [Config.fromStr, parseProject, hp, hn, hv, ha, hd,
                          hl, hr, hdep, hds] at h
                      | some deps =>
                        have hc : c = ⟨⟨nval, vval, aval, dval, lval, rval⟩, deps⟩ := by
                          simp [Config.fromStr, parseProject, hp, hn, hv, ha,
                            hd, hl, hr, hdep, hds] at h
                          exact h.symm
                        refine ⟨⟨pk, rfl, ⟨nval, asStr_some _ _ hn⟩,
                          ⟨vval, asStr_some _ _ hv⟩,
                          ⟨aval, asStrArr_some _ _ ha⟩, ?_, ?_, ?_⟩,
                          ⟨dk, rfl⟩⟩
                        · intro habs
                          rw [habs] at hd
                          have : dval = none := by simpa [asOptStr] using hd.symm
                          simp [hc, this]
                        · intro habs
                          rw [habs] at hl
                          have : lval = none := by simpa [asOptStr] using hl.symm
                          simp [hc, this]
                        · intro habs
                          rw [habs] at hr
                          have : rval = none := by simpa [asOptStr] using hr.symm
                          simp [hc, this]

/-- A minimal manifest: only the required fields of `[project]` and an
empty `[dependencies]` table. -/
def minimalManifest : TomlDoc :=
  [("project", TomlValue.table
     [("name", TomlValue.str "demo"),
      ("version", TomlValue.str "0.1.0"),
      ("authors", TomlValue.arr [])]),
   ("dependencies", TomlValue.table [])]

/-- C10 witness: the minimal manifest parses, its required fields are
present, and its absent optional fields come out as `None`. -/
theorem c10_witness :
    (∃ pk, tomlLookup minimalManifest "project" = some (TomlValue.table pk) ∧
      (∃ s, tomlLookup pk "name" = some (TomlValue.str s)) ∧
      (∃ s, tomlLookup pk "version" = some (TomlValue.str s)) ∧
      (∃ xs, tomlLookup pk "authors" = some (TomlValue.arr xs)) ∧
      (tomlLookup pk "description" = none →
        (⟨⟨"demo", "0.1.0", [], none, none, none⟩, []⟩ : Config).project.description = none) ∧
      (tomlLookup pk "license" = none →
        (⟨⟨"demo", "0.1.0", [], none, none, none⟩, []⟩ : Config).project.license = none) ∧
      (tomlLookup pk "repository" = none →
        (⟨⟨"demo", "0.1.0", [], none, none, none⟩, []⟩ : Config).project.repository = none)) ∧
    (∃ dk, tomlLookup minimalManifest "dependencies" = some (TomlValue.table dk)) :=
  c10_required_manifest_fields minimalManifest
    ⟨⟨"demo", "0.1.0", [], none, none, none⟩, []⟩ rfl

end Coppo
